import Mathlib

/-!
# Verification of the generated `migrateAllRecordsToNewSchema` migration engine

This development embeds, in Lean, the migration algorithm emitted by
`defineTypescriptDaoMaintenanceMigrateAllRecordsToNewSchemaCode` together with
the generated `findByUnique` accessor from
`defineTypescriptDaoFindByUniqueCode.ts`, and proves (or refutes) the spec's
claims about them.

Modelling choices:
- An `Entity` is the decoded domain object: an identity (`uuid`), its natural
  unique attributes (collapsed into one `natural` field), and the `updatedAt`
  recency stamp.  The current schema's unique-key serialization is an explicit
  parameter `derive : Entity → String` (the generated
  `castToDatabaseObject`/key-serialization code applied to the natural
  attributes).
- A `StoredRecord` is the physical row of the unique-index table: the
  serialized unique key `p` and the payload `o` (the payload decodes to the
  entity itself, so `castFromDatabaseObject` is projection).
- The unique-index table is a list of stored records.  A DynamoDB `put`
  overwrites the item addressed by the same hash key, so `put` drops every
  record sharing the new record's `p` and prepends the new record.
- The paginated scan is modelled by the finite list of responses the store
  returns; each response optionally carries an item page and an optional
  continuation token (`LastEvaluatedKey`).
- The concurrently scheduled per-record tasks of phases 2 and 3 are modelled
  by sequential state passing in list order, and `Promise.all` by: every
  sibling task still runs (its effects are applied) but the aggregate outcome
  carries the first error, in which case the caller never receives the stats.
-/

namespace DynamodbDaoGen

/-- A decoded domain object: stable identity, natural unique attributes and
the `updatedAt` recency stamp used as tie-breaker by the reconciler. -/
structure Entity where
  uuid : Nat
  natural : Nat
  updatedAt : Nat
  deriving DecidableEq, Repr

/-- A physical row of the unique-index table: serialized unique key `p` and
payload `o` (the projection `p, o` used by the migration's scan). -/
structure StoredRecord where
  p : String
  o : Entity
  deriving DecidableEq, Repr

/-- The unique-index table at rest. -/
abbrev Table := List StoredRecord

/-- `castFromDatabaseObject`: decodes a stored row back to its entity. -/
def castFromDatabaseObject (item : StoredRecord) : Entity :=
  item.o

/-- `castToDatabaseObject(...).byUniqueOnNaturalKey`: encodes an entity as the
unique-index row the *current* schema produces, with `p` the derived
serialized unique key. -/
def castToDatabaseObject (derive : Entity → String) (e : Entity) : StoredRecord :=
  { p := derive e, o := e }

/-- `simpleDynamodbClient.put` against the unique-index table: overwrites the
item addressed by the same hash key `p` (removing any row at that key) and
stores the new row. -/
def put (t : Table) (r : StoredRecord) : Table :=
  r :: t.filter (fun x => x.p ≠ r.p)

/-- The rows of the table addressed by a serialized unique key: the result
set of the `p = :p` key-condition query issued by `findByUnique`. -/
def recordsAt (t : Table) (key : String) : Table :=
  t.filter (fun x => x.p = key)

/-- The generated `findByUnique`: queries the unique-index table by the
entity's derived serialized key; returns `none` when no row matches, the row
when exactly one matches, and throws `UnexpectedCodePathError` ("more than
one object found by unique") when several match. -/
def findByUnique (t : Table) (key : String) : Except String (Option StoredRecord) :=
  match recordsAt t key with
  | [] => .ok none
  | [r] => .ok (some r)
  | _ => .error "more than one object found by unique"

/-- The generated `upsert` invoked with `force: true` in phase 3: writes the
entity through the canonical path to the unique-index table, unconditionally
(the `force` flag bypasses the no-changes short-circuit). -/
def upsert (derive : Entity → String) (e : Entity) (t : Table) : Table :=
  put t (castToDatabaseObject derive e)

/-- One response of the paginated `scan` call: `Items` (absent pages allowed)
and the optional `LastEvaluatedKey` continuation token. -/
structure ScanResponse where
  items : Option (List StoredRecord)
  lastEvaluatedKey : Option Nat
  deriving DecidableEq, Repr

/-- The scan loop of phase 1: pushes each response's page (`result.Items ?? []`),
breaks as soon as a response carries no `LastEvaluatedKey`, and otherwise
continues with the next response. -/
def scanAll : List ScanResponse → List (List StoredRecord)
  | [] => []
  | r :: rest =>
    (r.items.getD []) ::
      (match r.lastEvaluatedKey with
       | none => []
       | some _ => scanAll rest)

/-- One phase-2 task of the key reconciler, for the scanned record `rec`
(whose decoded entity is `castFromDatabaseObject rec` and whose stored key is
`rec.p`), against the current table state `t`.  Returns the new table state
and whether the record was pushed onto `writtenRecords`; propagates the
`findByUnique` error on an ambiguous lookup. -/
def reconcileTask (derive : Entity → String) (dryRun : Bool) (t : Table)
    (rec : StoredRecord) : Except String (Table × Bool) :=
  let object := castFromDatabaseObject rec
  let item := castToDatabaseObject derive object
  let expectedSerializedUniqueKey := item.p
  let foundSerializedUniqueKey := rec.p
  if expectedSerializedUniqueKey = foundSerializedUniqueKey then
    .ok (t, false)
  else
    match findByUnique t expectedSerializedUniqueKey with
    | .error e => .error e
    | .ok alsoFoundByExpectedKey =>
      if (match alsoFoundByExpectedKey with
          | none => true
          | some found => found.o.updatedAt < object.updatedAt) then
        .ok ((if dryRun then t else put t item), true)
      else
        .ok (t, false)

/-- Phase 2 over the whole scanned record set.  Every task runs (siblings are
not cancelled and their effects are applied); the third component carries the
first task error, mirroring how `Promise.all` rejects with the first
rejection while the remaining promises keep executing. -/
def reconcileAll (derive : Entity → String) (dryRun : Bool) :
    List StoredRecord → Table → Table × Nat × Option String
  | [], t => (t, 0, none)
  | rec :: rest, t =>
    match reconcileTask derive dryRun t rec with
    | .error e =>
      let r := reconcileAll derive dryRun rest t
      (r.1, r.2.1, some e)
    | .ok (t', wrote) =>
      let r := reconcileAll derive dryRun rest t'
      (r.1, (if wrote then r.2.1 + 1 else r.2.1), r.2.2)

/-- Phase 3: force-upsert every decoded entity through the canonical write
path, in scan order. -/
def rewriteAll (derive : Entity → String) : List Entity → Table → Table
  | [], t => t
  | e :: rest, t => rewriteAll derive rest (upsert derive e t)

/-- The migration report (`stats`): source and destination table names, the
row-level `modified.writtenUniqueKeyRecords` count and the overall
`migrated.objects` count. -/
structure Stats where
  fromTable : String
  toTable : String
  writtenUniqueKeyRecords : Nat
  migratedObjects : Nat
  deriving DecidableEq, Repr

/-- The observable outcome of one migration invocation: the final state of
the unique-index table, and either the stats or the error the returned
promise rejected with. -/
structure MigrateOutcome where
  table : Table
  result : Except String Stats
  deriving Repr

/-- The generated `migrateAllRecordsToNewSchema`, over the current schema's
key derivation `derive`, the invocation arguments `dryRun` and
`sourceTableName`, the scan responses the source table serves, and the
initial state `t0` of the unique-index (destination) table.

Phase 1 accumulates all pages; phase 2 reconciles every record (all tasks
run; a task error makes the whole invocation reject with it, so phase 3 is
never reached and no stats are returned); phase 3, skipped on `dryRun`,
force-upserts every decoded entity; finally the stats are assembled. -/
def migrateAllRecordsToNewSchema (derive : Entity → String) (dryRun : Bool)
    (inputSourceTableName : Option String) (uniqueKeyTableName : String)
    (responses : List ScanResponse) (t0 : Table) : MigrateOutcome :=
  let sourceTableName := inputSourceTableName.getD uniqueKeyTableName
  let pages := scanAll responses
  let items := pages.flatten
  let objects := items.map castFromDatabaseObject
  let phase2 := reconcileAll derive dryRun items t0
  match phase2.2.2 with
  | some e => { table := phase2.1, result := .error e }
  | none =>
    let finalTable := if dryRun then phase2.1 else rewriteAll derive objects phase2.1
    { table := finalTable
      result := .ok
        { fromTable := sourceTableName
          toTable := uniqueKeyTableName
          writtenUniqueKeyRecords := phase2.2.1
          migratedObjects := objects.length } }

/-- Modelled from the spec: the canonical write path's failure mode.  A store
write call may fail with a transport error (§7 TransportFailure: "scan page
fetch, lookup, or write call fails — not retried internally; aborts the
enclosing phase-task"); the generated `upsert` implementation is produced by
this repository but is not under src/ — only its invocation is.  Which calls
fail is abstracted as an oracle `wfail`: a failing call leaves the table
unchanged and rejects with its transport error, a succeeding call performs
the canonical forced `upsert`. -/
def upsertTry (derive : Entity → String) (wfail : Entity → Option String)
    (e : Entity) (t : Table) : Except String Table :=
  match wfail e with
  | some err => .error err
  | none => .ok (upsert derive e t)

/-- The re-write phase (phase 3) with the canonical write path's failure mode:
every task still runs (siblings are not cancelled and their writes land) and
the first rejection becomes the phase's aggregate outcome, mirroring how
`Promise.all` rejects while the remaining promises keep executing. -/
def rewriteAllTry (derive : Entity → String) (wfail : Entity → Option String) :
    List Entity → Table → Table × Option String
  | [], t => (t, none)
  | e :: rest, t =>
    match upsertTry derive wfail e t with
    | .error err =>
      let r := rewriteAllTry derive wfail rest t
      (r.1, some err)
    | .ok t' =>
      let r := rewriteAllTry derive wfail rest t'
      (r.1, r.2)

/-- `migrateAllRecordsToNewSchema` with the re-write phase's failure mode made
explicit: identical, except phase 3 runs `rewriteAllTry`, and when some
phase-3 task rejected the invocation rejects with the first such error — the
stats are never assembled — while the table keeps every sibling write.  With
a never-failing write path this coincides with
`migrateAllRecordsToNewSchema` (`migrateTry_nofail`). -/
def migrateAllRecordsToNewSchemaTry (derive : Entity → String)
    (wfail : Entity → Option String) (dryRun : Bool)
    (inputSourceTableName : Option String) (uniqueKeyTableName : String)
    (responses : List ScanResponse) (t0 : Table) : MigrateOutcome :=
  let sourceTableName := inputSourceTableName.getD uniqueKeyTableName
  let pages := scanAll responses
  let items := pages.flatten
  let objects := items.map castFromDatabaseObject
  let phase2 := reconcileAll derive dryRun items t0
  match phase2.2.2 with
  | some e => { table := phase2.1, result := .error e }
  | none =>
    if dryRun then
      { table := phase2.1
        result := .ok
          { fromTable := sourceTableName
            toTable := uniqueKeyTableName
            writtenUniqueKeyRecords := phase2.2.1
            migratedObjects := objects.length } }
    else
      let phase3 := rewriteAllTry derive wfail objects phase2.1
      match phase3.2 with
      | some e => { table := phase3.1, result := .error e }
      | none =>
        { table := phase3.1
          result := .ok
            { fromTable := sourceTableName
              toTable := uniqueKeyTableName
              writtenUniqueKeyRecords := phase2.2.1
              migratedObjects := objects.length } }

/-- A concrete schema key-derivation (serialize the natural key behind a
fixed prefix), used to instantiate the abstract `derive` parameter on
concrete stores. -/
def deriveNaturalKey (e : Entity) : String :=
  "k" ++ toString e.natural

/-- The `maxConcurrent` ceiling the generated code passes to its module-level
limiter: `new Bottleneck({ maxConcurrent: 1000 })`. -/
def bottleneckMaxConcurrent : Nat := 1000

/-- Modelled from the spec: the state of the `bottleneck` concurrency limiter
(the `bottleneck` npm package the generated code instantiates is an external
dependency whose implementation is not part of this repository).  It counts
the scheduled tasks still pending, the tasks currently executing, and the
tasks that have completed. -/
structure LimiterState where
  pending : Nat
  running : Nat
  completed : Nat
  deriving DecidableEq, Repr

/-- Modelled from the spec: one scheduling event of the limiter with ceiling
`cap`: a pending task may start only while strictly fewer than `cap` tasks
are executing, and an executing task may finish at any time. -/
inductive LimiterStep (cap : Nat) : LimiterState → LimiterState → Prop
  | start (p r c : Nat) : r < cap → LimiterStep cap ⟨p + 1, r, c⟩ ⟨p, r + 1, c⟩
  | finish (p r c : Nat) : LimiterStep cap ⟨p, r + 1, c⟩ ⟨p, r, c + 1⟩

/-- The states the limiter can reach from a start state through any
interleaving of scheduling events. -/
inductive LimiterReachable (cap : Nat) : LimiterState → LimiterState → Prop
  | refl (s : LimiterState) : LimiterReachable cap s s
  | tail {s t u : LimiterState} : LimiterReachable cap s t → LimiterStep cap t u →
      LimiterReachable cap s u

/-! ## Concrete stores used to instantiate the claims -/

/-- An entity with identity 1 on natural key 1. -/
def entityA : Entity := ⟨1, 1, 5⟩

/-- A second, distinct identity sharing `entityA`'s natural key. -/
def entityB : Entity := ⟨2, 1, 5⟩

/-- An older version of the logical entity `entityA` (same identity and
natural key, earlier `updatedAt`). -/
def entityAOld : Entity := ⟨1, 1, 3⟩

/-- A store holding `entityA` under a stale serialized key while a distinct
identity `entityB` sits at `entityA`'s currently-derived key. -/
def c2Table0 : Table := [⟨"old", entityA⟩, ⟨"k1", entityB⟩]

/-- Single scan page serving `c2Table0`. -/
def c2Responses : List ScanResponse := [⟨some c2Table0, none⟩]

/-- A store holding the newer version of an entity under a stale serialized
key and the older version under the currently-derived key. -/
def c3Table0 : Table := [⟨"old", entityA⟩, ⟨"k1", entityAOld⟩]

/-- Single scan page serving `c3Table0`. -/
def c3Responses1 : List ScanResponse := [⟨some c3Table0, none⟩]

/-- First migration run over `c3Table0`. -/
def c3Run1 : MigrateOutcome :=
  migrateAllRecordsToNewSchema deriveNaturalKey false none "U" c3Responses1 c3Table0

/-- Single scan page serving the table state `c3Run1` left behind. -/
def c3Responses2 : List ScanResponse := [⟨some c3Run1.table, none⟩]

/-- Second migration run, over the table the first run produced. -/
def c3Run2 : MigrateOutcome :=
  migrateAllRecordsToNewSchema deriveNaturalKey false none "U" c3Responses2 c3Run1.table

/-- Two records with distinct identities on the same natural key, both stored
under stale serialized keys, with nothing yet at the derived key. -/
def c4Table0 : Table := [⟨"a", entityA⟩, ⟨"b", entityB⟩]

/-- Single scan page serving `c4Table0`. -/
def c4Responses : List ScanResponse := [⟨some c4Table0, none⟩]

/-- Two stale-keyed records whose derived keys are pairwise distinct. -/
def c4OkTable : Table := [⟨"a", ⟨1, 1, 5⟩⟩, ⟨"b", ⟨2, 2, 5⟩⟩]

/-- Single scan page serving `c4OkTable`. -/
def c4OkResponses : List ScanResponse := [⟨some c4OkTable, none⟩]

/-- Single scan page serving the table a first migration run over
`c4OkTable` leaves behind. -/
def c3WitnessResponses2 : List ScanResponse :=
  [⟨some (migrateAllRecordsToNewSchema deriveNaturalKey false none "U"
      c4OkResponses c4OkTable).table, none⟩]

/-- A store with a pre-existing integrity violation: two records resolve to
the serialized key "k1", plus a stale-keyed record whose derived key is
"k1". -/
def c6Table0 : Table := [⟨"k1", entityA⟩, ⟨"k1", entityB⟩, ⟨"old", ⟨3, 1, 5⟩⟩]

/-- Single scan page serving `c6Table0`. -/
def c6Responses : List ScanResponse := [⟨some c6Table0, none⟩]

/-- A concrete transport-failure oracle: the store rejects the canonical
write for the entity with identity 9 and accepts every other write. -/
def c6Wfail (o : Entity) : Option String :=
  if o.uuid = 9 then some "transport failure" else none

/-- A store whose single record already matches its derived key, so phase 2
is clean, but whose entity's canonical re-write is rejected by `c6Wfail`. -/
def c6p3Table : Table := [⟨"k9", ⟨9, 9, 9⟩⟩]

/-- Single scan page serving `c6p3Table`. -/
def c6p3Responses : List ScanResponse := [⟨some c6p3Table, none⟩]

/-- A stale-keyed record whose derived key is "k1". -/
def c7Rec : StoredRecord := ⟨"old", ⟨3, 1, 5⟩⟩

/-- A destination table where two records already resolve to "k1". -/
def c7Table0 : Table := [⟨"k1", entityA⟩, ⟨"k1", entityB⟩]

/-- Single scan page serving just `c7Rec`. -/
def c7Responses : List ScanResponse := [⟨some [c7Rec], none⟩]

/-- A record already stored under its currently-derived key. -/
def c5Record : StoredRecord := ⟨"k1", entityA⟩

/-- First scan page: 14 records. -/
def c5Page1 : List StoredRecord := List.replicate 14 c5Record

/-- Second scan page: 13 records. -/
def c5Page2 : List StoredRecord := List.replicate 13 c5Record

/-- Third and last scan page: 13 records. -/
def c5Page3 : List StoredRecord := List.replicate 13 c5Record

/-- The first two scan responses, each carrying a continuation token. -/
def c5Front : List ScanResponse := [⟨some c5Page1, some 1⟩, ⟨some c5Page2, some 2⟩]

/-- The final scan response, carrying no continuation token. -/
def c5Last : ScanResponse := ⟨some c5Page3, none⟩

/-! ## Basic lemmas about the store primitives -/

theorem recordsAt_put_self (t : Table) (r : StoredRecord) :
    recordsAt (put t r) r.p = [r] := by
  unfold recordsAt put
  rw [List.filter_cons, if_pos (by simp), List.filter_filter]
  have hnil : List.filter (fun x => decide (x.p = r.p) && decide (x.p ≠ r.p)) t = [] := by
    apply List.filter_eq_nil_iff.mpr
    intro a _
    by_cases ha : a.p = r.p <;> simp [ha]
  rw [hnil]

theorem recordsAt_put_other (t : Table) (r : StoredRecord) (k : String)
    (h : k ≠ r.p) : recordsAt (put t r) k = recordsAt t k := by
  unfold recordsAt put
  rw [List.filter_cons, if_neg (by simp; exact fun hh => h hh.symm), List.filter_filter]
  congr 1
  funext x
  by_cases hx : x.p = k
  · simp [hx, h]
  · simp [hx]

theorem mem_put (x : StoredRecord) (t : Table) (r : StoredRecord) :
    x ∈ put t r ↔ x = r ∨ (x ∈ t ∧ x.p ≠ r.p) := by
  simp [put, List.mem_filter]

theorem mem_of_mem_recordsAt (t : Table) (k : String) (x : StoredRecord)
    (h : x ∈ recordsAt t k) : x ∈ t ∧ x.p = k := by
  simpa [recordsAt, List.mem_filter] using h

theorem mem_recordsAt_of_mem (t : Table) (x : StoredRecord)
    (h : x ∈ t) : x ∈ recordsAt t x.p := by
  simp [recordsAt, List.mem_filter, h]

theorem mem_put_iff_of_recordsAt (t : Table) (r : StoredRecord)
    (h : recordsAt t r.p = [r]) : ∀ x, x ∈ put t r ↔ x ∈ t := by
  intro x
  rw [mem_put]
  constructor
  · rintro (rfl | ⟨hx, _⟩)
    · have hr : x ∈ recordsAt t x.p := by rw [h]; exact List.mem_cons_self x []
      exact (mem_of_mem_recordsAt t x.p x hr).1
    · exact hx
  · intro hx
    by_cases hp : x.p = r.p
    · left
      have : x ∈ recordsAt t r.p := hp ▸ mem_recordsAt_of_mem t x hx
      rw [h] at this
      exact List.mem_singleton.mp this
    · exact Or.inr ⟨hx, hp⟩

theorem findByUnique_of_empty (t : Table) (k : String)
    (h : recordsAt t k = []) : findByUnique t k = .ok none := by
  unfold findByUnique
  rw [h]

theorem findByUnique_of_singleton (t : Table) (k : String) (r : StoredRecord)
    (h : recordsAt t k = [r]) : findByUnique t k = .ok (some r) := by
  unfold findByUnique
  rw [h]

theorem findByUnique_of_two (t : Table) (k : String)
    (h : 2 ≤ (recordsAt t k).length) :
    findByUnique t k = .error "more than one object found by unique" := by
  unfold findByUnique
  rcases hl : recordsAt t k with _ | ⟨a, _ | ⟨b, m⟩⟩
  · rw [hl] at h; simp at h
  · rw [hl] at h; simp at h
  · rfl

/-! ## Lemmas about the re-write phase (`rewriteAll`) -/

theorem rewriteAll_recordsAt_skip (derive : Entity → String)
    (objs : List Entity) (k : String)
    (h : ∀ o ∈ objs, derive o ≠ k) :
    ∀ t, recordsAt (rewriteAll derive objs t) k = recordsAt t k := by
  induction objs with
  | nil => intro t; rfl
  | cons e rest ih =>
    intro t
    rw [rewriteAll, ih (fun o ho => h o (List.mem_cons_of_mem e ho))]
    exact recordsAt_put_other t (castToDatabaseObject derive e) k
      (fun hk => h e (List.mem_cons_self e rest) hk.symm)

theorem rewriteAll_recordsAt_mem (derive : Entity → String)
    (objs : List Entity) :
    ∀ o ∈ objs, ∀ t, ∃ oL, oL ∈ objs ∧ derive oL = derive o ∧
      recordsAt (rewriteAll derive objs t) (derive o)
        = [castToDatabaseObject derive oL] := by
  induction objs with
  | nil => intro o ho; cases ho
  | cons e rest ih =>
    intro o ho t
    by_cases hrest : ∃ o', o' ∈ rest ∧ derive o' = derive o
    · obtain ⟨o', ho', hde⟩ := hrest
      obtain ⟨oL, hL1, hL2, hL3⟩ := ih o' ho' (upsert derive e t)
      refine ⟨oL, List.mem_cons_of_mem e hL1, hL2.trans hde, ?_⟩
      rw [rewriteAll]
      rw [hde] at hL3
      exact hL3
    · push_neg at hrest
      have hoe : o = e := by
        rcases List.mem_cons.mp ho with h1 | h1
        · exact h1
        · exact absurd rfl (hrest o h1)
      subst hoe
      refine ⟨o, List.mem_cons_self o rest, rfl, ?_⟩
      rw [rewriteAll, rewriteAll_recordsAt_skip derive rest (derive o) hrest]
      exact recordsAt_put_self t (castToDatabaseObject derive o)

theorem mem_rewriteAll (derive : Entity → String) (objs : List Entity)
    (x : StoredRecord) :
    ∀ t, x ∈ rewriteAll derive objs t → x ∈ t ∨ x.o ∈ objs := by
  induction objs with
  | nil => intro t h; exact Or.inl h
  | cons e rest ih =>
    intro t h
    rcases ih (upsert derive e t) h with h1 | h1
    · rcases (mem_put x t (castToDatabaseObject derive e)).mp h1 with h2 | h2
      · right; rw [h2]; exact List.mem_cons_self e rest
      · exact Or.inl h2.1
    · exact Or.inr (List.mem_cons_of_mem e h1)

theorem rewriteAll_seteq (derive : Entity → String) (objs : List Entity) :
    ∀ t, (∀ o ∈ objs, recordsAt t (derive o) = [castToDatabaseObject derive o]) →
      ∀ x, x ∈ rewriteAll derive objs t ↔ x ∈ t := by
  induction objs with
  | nil => intro t _ x; rfl
  | cons e rest ih =>
    intro t hI x
    have hhead : recordsAt t (derive e) = [castToDatabaseObject derive e] :=
      hI e (List.mem_cons_self e rest)
    have hput : ∀ y, y ∈ put t (castToDatabaseObject derive e) ↔ y ∈ t :=
      mem_put_iff_of_recordsAt t (castToDatabaseObject derive e) hhead
    have hI' : ∀ o ∈ rest,
        recordsAt (put t (castToDatabaseObject derive e)) (derive o)
          = [castToDatabaseObject derive o] := by
      intro o ho
      have h1 : recordsAt t (derive o) = [castToDatabaseObject derive o] :=
        hI o (List.mem_cons_of_mem e ho)
      by_cases hd : derive o = derive e
      · have h3 := h1
        rw [hd, hhead] at h3
        have h2 : castToDatabaseObject derive o = castToDatabaseObject derive e :=
          (List.cons_eq_cons.mp h3.symm).1
        rw [hd, h2]
        exact recordsAt_put_self t (castToDatabaseObject derive e)
      · rw [recordsAt_put_other t (castToDatabaseObject derive e) (derive o) hd]
        exact h1
    have hstep : rewriteAll derive (e :: rest) t
        = rewriteAll derive rest (put t (castToDatabaseObject derive e)) := rfl
    rw [hstep]
    exact (ih (put t (castToDatabaseObject derive e)) hI' x).trans (hput x)

/-! ## Lemmas about the reconcile phase (`reconcileTask`, `reconcileAll`) -/

theorem reconcileTask_of_match (derive : Entity → String) (dryRun : Bool)
    (t : Table) (rec : StoredRecord) (h : derive rec.o = rec.p) :
    reconcileTask derive dryRun t rec = .ok (t, false) := by
  simp [reconcileTask, castFromDatabaseObject, castToDatabaseObject, h]

theorem reconcileTask_of_error (derive : Entity → String) (dryRun : Bool)
    (t : Table) (rec : StoredRecord) (e : String)
    (hne : derive rec.o ≠ rec.p)
    (h : findByUnique t (derive rec.o) = .error e) :
    reconcileTask derive dryRun t rec = .error e := by
  simp [reconcileTask, castFromDatabaseObject, castToDatabaseObject, hne, h]

theorem reconcileTask_of_none (derive : Entity → String) (dryRun : Bool)
    (t : Table) (rec : StoredRecord)
    (hne : derive rec.o ≠ rec.p)
    (h : findByUnique t (derive rec.o) = .ok none) :
    reconcileTask derive dryRun t rec =
      .ok ((if dryRun then t else put t (castToDatabaseObject derive rec.o)), true) := by
  simp [reconcileTask, castFromDatabaseObject, castToDatabaseObject, hne, h]

theorem reconcileTask_of_older (derive : Entity → String) (dryRun : Bool)
    (t : Table) (rec : StoredRecord) (found : StoredRecord)
    (hne : derive rec.o ≠ rec.p)
    (h : findByUnique t (derive rec.o) = .ok (some found))
    (hlt : found.o.updatedAt < rec.o.updatedAt) :
    reconcileTask derive dryRun t rec =
      .ok ((if dryRun then t else put t (castToDatabaseObject derive rec.o)), true) := by
  simp [reconcileTask, castFromDatabaseObject, castToDatabaseObject, hne, h, hlt]

theorem reconcileTask_of_notOlder (derive : Entity → String) (dryRun : Bool)
    (t : Table) (rec : StoredRecord) (found : StoredRecord)
    (hne : derive rec.o ≠ rec.p)
    (h : findByUnique t (derive rec.o) = .ok (some found))
    (hge : ¬ found.o.updatedAt < rec.o.updatedAt) :
    reconcileTask derive dryRun t rec = .ok (t, false) := by
  simp [reconcileTask, castFromDatabaseObject, castToDatabaseObject, hne, h, hge]

theorem reconcileTask_ok_table (derive : Entity → String) (dryRun : Bool)
    (t : Table) (rec : StoredRecord) (t' : Table) (w : Bool)
    (h : reconcileTask derive dryRun t rec = .ok (t', w)) :
    t' = t ∨ t' = put t (castToDatabaseObject derive rec.o) := by
  by_cases hm : derive rec.o = rec.p
  · rw [reconcileTask_of_match derive dryRun t rec hm] at h
    simp at h
    exact Or.inl h.1.symm
  · cases hf : findByUnique t (derive rec.o) with
    | error e =>
      rw [reconcileTask_of_error derive dryRun t rec e hm hf] at h
      simp at h
    | ok f =>
      cases f with
      | none =>
        rw [reconcileTask_of_none derive dryRun t rec hm hf] at h
        simp at h
        by_cases hd : dryRun
        · simp [hd] at h; exact Or.inl h.1.symm
        · simp [hd] at h; exact Or.inr h.1.symm
      | some found =>
        by_cases hlt : found.o.updatedAt < rec.o.updatedAt
        · rw [reconcileTask_of_older derive dryRun t rec found hm hf hlt] at h
          simp at h
          by_cases hd : dryRun
          · simp [hd] at h; exact Or.inl h.1.symm
          · simp [hd] at h; exact Or.inr h.1.symm
        · rw [reconcileTask_of_notOlder derive dryRun t rec found hm hf hlt] at h
          simp at h
          exact Or.inl h.1.symm

theorem reconcileTask_dryRun_table (derive : Entity → String)
    (t : Table) (rec : StoredRecord) (t' : Table) (w : Bool)
    (h : reconcileTask derive true t rec = .ok (t', w)) : t' = t := by
  by_cases hm : derive rec.o = rec.p
  · rw [reconcileTask_of_match derive true t rec hm] at h
    simp at h
    exact h.1.symm
  · cases hf : findByUnique t (derive rec.o) with
    | error e =>
      rw [reconcileTask_of_error derive true t rec e hm hf] at h
      simp at h
    | ok f =>
      cases f with
      | none =>
        rw [reconcileTask_of_none derive true t rec hm hf] at h
        simp at h
        exact h.1.symm
      | some found =>
        by_cases hlt : found.o.updatedAt < rec.o.updatedAt
        · rw [reconcileTask_of_older derive true t rec found hm hf hlt] at h
          simp at h
          exact h.1.symm
        · rw [reconcileTask_of_notOlder derive true t rec found hm hf hlt] at h
          simp at h
          exact h.1.symm

theorem mem_reconcileAll (derive : Entity → String) (dryRun : Bool)
    (recs : List StoredRecord) (x : StoredRecord) :
    ∀ t, x ∈ (reconcileAll derive dryRun recs t).1 →
      x ∈ t ∨ x.o ∈ recs.map StoredRecord.o := by
  induction recs with
  | nil => intro t h; exact Or.inl h
  | cons rec rest ih =>
    intro t h
    cases hrt : reconcileTask derive dryRun t rec with
    | error e =>
      rw [reconcileAll, hrt] at h
      rcases ih t h with h1 | h1
      · exact Or.inl h1
      · exact Or.inr (by simp [h1])
    | ok pr =>
      rw [reconcileAll, hrt] at h
      rcases ih pr.1 h with h1 | h1
      · rcases reconcileTask_ok_table derive dryRun t rec pr.1 pr.2
          (by rw [hrt]) with h2 | h2
        · rw [h2] at h1; exact Or.inl h1
        · rw [h2] at h1
          rcases (mem_put x t (castToDatabaseObject derive rec.o)).mp h1 with h3 | h3
          · right; rw [h3]; simp [castToDatabaseObject]
          · exact Or.inl h3.1
      · exact Or.inr (by simp [h1])

theorem reconcileAll_noop (derive : Entity → String) (dryRun : Bool)
    (recs : List StoredRecord) (t : Table)
    (h : ∀ rec ∈ recs, derive rec.o = rec.p ∨
      recordsAt t (derive rec.o) = [castToDatabaseObject derive rec.o]) :
    reconcileAll derive dryRun recs t = (t, 0, none) := by
  induction recs with
  | nil => rfl
  | cons rec rest ih =>
    have htask : reconcileTask derive dryRun t rec = .ok (t, false) := by
      rcases h rec (List.mem_cons_self rec rest) with h1 | h1
      · exact reconcileTask_of_match derive dryRun t rec h1
      · by_cases hm : derive rec.o = rec.p
        · exact reconcileTask_of_match derive dryRun t rec hm
        · exact reconcileTask_of_notOlder derive dryRun t rec
            (castToDatabaseObject derive rec.o) hm
            (findByUnique_of_singleton t (derive rec.o) _ h1)
            (by simp [castToDatabaseObject])
    rw [reconcileAll, htask]
    simp [ih (fun r hr => h r (List.mem_cons_of_mem rec hr))]

theorem reconcileAll_dryRun_table (derive : Entity → String)
    (recs : List StoredRecord) :
    ∀ t, (reconcileAll derive true recs t).1 = t := by
  induction recs with
  | nil => intro t; rfl
  | cons rec rest ih =>
    intro t
    cases hrt : reconcileTask derive true t rec with
    | error e => rw [reconcileAll, hrt]; exact ih t
    | ok pr =>
      rw [reconcileAll, hrt]
      have := reconcileTask_dryRun_table derive t rec pr.1 pr.2 (by rw [hrt])
      rw [show (reconcileAll derive true rest pr.1).1 = pr.1 from ih pr.1, this]

theorem reconcileAll_agree (derive : Entity → String) (items : List StoredRecord) :
    ∀ t t', (∀ rec ∈ items, recordsAt t (derive rec.o) = recordsAt t' (derive rec.o)) →
      (items.map (fun r => derive r.o)).Nodup →
      (reconcileAll derive true items t).2 = (reconcileAll derive false items t').2 := by
  induction items with
  | nil => intro t t' _ _; rfl
  | cons rec rest ih =>
    intro t t' hagree hnd
    have hag0 : recordsAt t (derive rec.o) = recordsAt t' (derive rec.o) :=
      hagree rec (List.mem_cons_self rec rest)
    have hnd' : (rest.map (fun r => derive r.o)).Nodup := (List.nodup_cons.mp hnd).2
    have hkey : ∀ r ∈ rest, derive r.o ≠ derive rec.o := by
      intro r hr heq
      have hmem : derive rec.o ∈ rest.map (fun r => derive r.o) := by
        rw [← heq]
        exact List.mem_map_of_mem _ hr
      exact (List.nodup_cons.mp hnd).1 hmem
    have hagree' : ∀ r ∈ rest, recordsAt t (derive r.o) = recordsAt t' (derive r.o) :=
      fun r hr => hagree r (List.mem_cons_of_mem rec hr)
    have hfb : findByUnique t' (derive rec.o) = findByUnique t (derive rec.o) := by
      unfold findByUnique
      rw [hag0]
    by_cases hm : derive rec.o = rec.p
    · rw [reconcileAll, reconcileTask_of_match derive true t rec hm,
          reconcileAll, reconcileTask_of_match derive false t' rec hm]
      have hi := ih t t' hagree' hnd'
      simp [hi]
    · cases hf : findByUnique t (derive rec.o) with
      | error e =>
        have hf' : findByUnique t' (derive rec.o) = .error e := by rw [hfb, hf]
        rw [reconcileAll, reconcileTask_of_error derive true t rec e hm hf,
            reconcileAll, reconcileTask_of_error derive false t' rec e hm hf']
        have hi := ih t t' hagree' hnd'
        simp [hi]
      | ok fo =>
        have hagreePut : ∀ r ∈ rest, recordsAt t (derive r.o)
            = recordsAt (put t' (castToDatabaseObject derive rec.o)) (derive r.o) := by
          intro r hr
          rw [recordsAt_put_other t' (castToDatabaseObject derive rec.o) (derive r.o)
            (hkey r hr)]
          exact hagree' r hr
        cases fo with
        | none =>
          have hf' : findByUnique t' (derive rec.o) = .ok none := by rw [hfb, hf]
          rw [reconcileAll, reconcileTask_of_none derive true t rec hm hf,
              reconcileAll, reconcileTask_of_none derive false t' rec hm hf']
          have hi := ih t (put t' (castToDatabaseObject derive rec.o)) hagreePut hnd'
          simp [hi]
        | some found =>
          have hf' : findByUnique t' (derive rec.o) = .ok (some found) := by rw [hfb, hf]
          by_cases hlt : found.o.updatedAt < rec.o.updatedAt
          · rw [reconcileAll, reconcileTask_of_older derive true t rec found hm hf hlt,
                reconcileAll, reconcileTask_of_older derive false t' rec found hm hf' hlt]
            have hi := ih t (put t' (castToDatabaseObject derive rec.o)) hagreePut hnd'
            simp [hi]
          · rw [reconcileAll, reconcileTask_of_notOlder derive true t rec found hm hf hlt,
                reconcileAll, reconcileTask_of_notOlder derive false t' rec found hm hf' hlt]
            have hi := ih t t' hagree' hnd'
            simp [hi]

/-! ## The migration, characterized -/

theorem migrate_eq (derive : Entity → String) (dryRun : Bool)
    (src : Option String) (ukt : String) (resp : List ScanResponse) (t0 : Table) :
    migrateAllRecordsToNewSchema derive dryRun src ukt resp t0 =
      (match (reconcileAll derive dryRun ((scanAll resp).flatten) t0).2.2 with
       | some e =>
         ⟨(reconcileAll derive dryRun ((scanAll resp).flatten) t0).1, .error e⟩
       | none =>
         ⟨(if dryRun then (reconcileAll derive dryRun ((scanAll resp).flatten) t0).1
           else rewriteAll derive (((scanAll resp).flatten).map castFromDatabaseObject)
             (reconcileAll derive dryRun ((scanAll resp).flatten) t0).1),
          .ok ⟨src.getD ukt, ukt,
               (reconcileAll derive dryRun ((scanAll resp).flatten) t0).2.1,
               ((scanAll resp).flatten).length⟩⟩) := by
  unfold migrateAllRecordsToNewSchema
  simp only [List.length_map]

theorem migrate_of_phase2_some (derive : Entity → String) (dryRun : Bool)
    (src : Option String) (ukt : String) (resp : List ScanResponse) (t0 : Table)
    (e : String)
    (h : (reconcileAll derive dryRun ((scanAll resp).flatten) t0).2.2 = some e) :
    migrateAllRecordsToNewSchema derive dryRun src ukt resp t0 =
      ⟨(reconcileAll derive dryRun ((scanAll resp).flatten) t0).1, .error e⟩ := by
  rw [migrate_eq, h]

theorem migrate_of_phase2_none (derive : Entity → String) (dryRun : Bool)
    (src : Option String) (ukt : String) (resp : List ScanResponse) (t0 : Table)
    (h : (reconcileAll derive dryRun ((scanAll resp).flatten) t0).2.2 = none) :
    migrateAllRecordsToNewSchema derive dryRun src ukt resp t0 =
      ⟨(if dryRun then (reconcileAll derive dryRun ((scanAll resp).flatten) t0).1
        else rewriteAll derive (((scanAll resp).flatten).map castFromDatabaseObject)
          (reconcileAll derive dryRun ((scanAll resp).flatten) t0).1),
       .ok ⟨src.getD ukt, ukt,
            (reconcileAll derive dryRun ((scanAll resp).flatten) t0).2.1,
            ((scanAll resp).flatten).length⟩⟩ := by
  rw [migrate_eq, h]

theorem migrate_ok_phase2_none (derive : Entity → String) (dryRun : Bool)
    (src : Option String) (ukt : String) (resp : List ScanResponse) (t0 : Table)
    (s : Stats)
    (h : (migrateAllRecordsToNewSchema derive dryRun src ukt resp t0).result = .ok s) :
    (reconcileAll derive dryRun ((scanAll resp).flatten) t0).2.2 = none := by
  cases he : (reconcileAll derive dryRun ((scanAll resp).flatten) t0).2.2 with
  | none => rfl
  | some e =>
    rw [migrate_of_phase2_some derive dryRun src ukt resp t0 e he] at h
    simp at h

theorem migrate_ok_stats (derive : Entity → String) (dryRun : Bool)
    (src : Option String) (ukt : String) (resp : List ScanResponse) (t0 : Table)
    (s : Stats)
    (h : (migrateAllRecordsToNewSchema derive dryRun src ukt resp t0).result = .ok s) :
    s = ⟨src.getD ukt, ukt,
         (reconcileAll derive dryRun ((scanAll resp).flatten) t0).2.1,
         ((scanAll resp).flatten).length⟩ := by
  have hnone := migrate_ok_phase2_none derive dryRun src ukt resp t0 s h
  rw [migrate_of_phase2_none derive dryRun src ukt resp t0 hnone] at h
  simpa using h.symm

theorem scanAll_complete (lastR : ScanResponse)
    (hlast : lastR.lastEvaluatedKey = none) :
    ∀ front : List ScanResponse, (∀ r ∈ front, r.lastEvaluatedKey.isSome) →
      scanAll (front ++ [lastR]) = (front ++ [lastR]).map (fun r => r.items.getD []) := by
  intro front
  induction front with
  | nil => intro _; simp [scanAll, hlast]
  | cons r rest ih =>
    intro hfront
    obtain ⟨tok, htok⟩ :=
      Option.isSome_iff_exists.mp (hfront r (List.mem_cons_self r rest))
    have hr := ih (fun r' h' => hfront r' (List.mem_cons_of_mem r h'))
    simp only [List.cons_append, scanAll, htok, List.map_cons, List.append_eq]
    rw [hr]

theorem migrate_dryRun_table (derive : Entity → String)
    (src : Option String) (ukt : String) (resp : List ScanResponse) (t0 : Table) :
    (migrateAllRecordsToNewSchema derive true src ukt resp t0).table = t0 := by
  rw [migrate_eq]
  cases h : (reconcileAll derive true ((scanAll resp).flatten) t0).2.2 with
  | none => simpa using reconcileAll_dryRun_table derive ((scanAll resp).flatten) t0
  | some e => simpa using reconcileAll_dryRun_table derive ((scanAll resp).flatten) t0

theorem map_castFrom_eq (l : Table) :
    l.map castFromDatabaseObject = l.map StoredRecord.o := rfl

theorem migrateTry_eq (derive : Entity → String) (wfail : Entity → Option String)
    (dryRun : Bool) (src : Option String) (ukt : String)
    (resp : List ScanResponse) (t0 : Table) :
    migrateAllRecordsToNewSchemaTry derive wfail dryRun src ukt resp t0 =
      (match (reconcileAll derive dryRun ((scanAll resp).flatten) t0).2.2 with
       | some e =>
         ⟨(reconcileAll derive dryRun ((scanAll resp).flatten) t0).1, .error e⟩
       | none =>
         if dryRun then
           ⟨(reconcileAll derive dryRun ((scanAll resp).flatten) t0).1,
            .ok ⟨src.getD ukt, ukt,
                 (reconcileAll derive dryRun ((scanAll resp).flatten) t0).2.1,
                 ((scanAll resp).flatten).length⟩⟩
         else
           match (rewriteAllTry derive wfail
               (((scanAll resp).flatten).map castFromDatabaseObject)
               (reconcileAll derive dryRun ((scanAll resp).flatten) t0).1).2 with
           | some e =>
             ⟨(rewriteAllTry derive wfail
                 (((scanAll resp).flatten).map castFromDatabaseObject)
                 (reconcileAll derive dryRun ((scanAll resp).flatten) t0).1).1,
              .error e⟩
           | none =>
             ⟨(rewriteAllTry derive wfail
                 (((scanAll resp).flatten).map castFromDatabaseObject)
                 (reconcileAll derive dryRun ((scanAll resp).flatten) t0).1).1,
              .ok ⟨src.getD ukt, ukt,
                   (reconcileAll derive dryRun ((scanAll resp).flatten) t0).2.1,
                   ((scanAll resp).flatten).length⟩⟩) := by
  unfold migrateAllRecordsToNewSchemaTry
  simp only [List.length_map]

theorem rewriteAllTry_nofail (derive : Entity → String) (objs : List Entity) :
    ∀ t, rewriteAllTry derive (fun _ => none) objs t
      = (rewriteAll derive objs t, none) := by
  induction objs with
  | nil => intro t; rfl
  | cons e rest ih =>
    intro t
    rw [rewriteAllTry]
    have hup : upsertTry derive (fun _ => none) e t = .ok (upsert derive e t) := rfl
    have h2 := ih (upsert derive e t)
    rw [hup]
    simp [h2, rewriteAll]

theorem migrateTry_nofail (derive : Entity → String) (dryRun : Bool)
    (src : Option String) (ukt : String) (resp : List ScanResponse) (t0 : Table) :
    migrateAllRecordsToNewSchemaTry derive (fun _ => none) dryRun src ukt resp t0
      = migrateAllRecordsToNewSchema derive dryRun src ukt resp t0 := by
  rw [migrateTry_eq, migrate_eq]
  cases he : (reconcileAll derive dryRun ((scanAll resp).flatten) t0).2.2 with
  | some e => rfl
  | none =>
    cases dryRun with
    | true => rfl
    | false =>
      rw [rewriteAllTry_nofail derive
        (((scanAll resp).flatten).map castFromDatabaseObject)
        ((reconcileAll derive false ((scanAll resp).flatten) t0).1)]
      rfl

/-! ## The claims -/

/-- C1: for a scanned record whose stored unique-index key differs from the
key the current schema derives for its decoded entity, the reconciler writes
a unique-index record at the derived key if and only if either no record
exists at that key, or the record found there has an `updatedAt` strictly
earlier than the entity's `updatedAt`; when the found record's `updatedAt` is
equal to or later than the entity's, no write occurs and the record is not
counted in `writtenUniqueKeyRecords`. -/
theorem claim_C1_reconciler_write_condition (derive : Entity → String)
    (t : Table) (rec : StoredRecord) (hne : derive rec.o ≠ rec.p) :
    ((∃ t', reconcileTask derive false t rec = .ok (t', true)) ↔
      (findByUnique t (derive rec.o) = .ok none ∨
        ∃ r, findByUnique t (derive rec.o) = .ok (some r)
          ∧ r.o.updatedAt < rec.o.updatedAt))
    ∧ (∀ t', reconcileTask derive false t rec = .ok (t', true) →
        t' = put t (castToDatabaseObject derive rec.o))
    ∧ (∀ r, findByUnique t (derive rec.o) = .ok (some r) →
        rec.o.updatedAt ≤ r.o.updatedAt →
        reconcileTask derive false t rec = .ok (t, false)
          ∧ ∀ rest, (reconcileAll derive false (rec :: rest) t).2.1
              = (reconcileAll derive false rest t).2.1) := by
  refine ⟨⟨?_, ?_⟩, ?_, ?_⟩
  · rintro ⟨t', ht⟩
    cases hf : findByUnique t (derive rec.o) with
    | error e =>
      rw [reconcileTask_of_error derive false t rec e hne hf] at ht
      simp at ht
    | ok fo =>
      cases fo with
      | none => exact Or.inl rfl
      | some r =>
        by_cases hlt : r.o.updatedAt < rec.o.updatedAt
        · exact Or.inr ⟨r, rfl, hlt⟩
        · rw [reconcileTask_of_notOlder derive false t rec r hne hf hlt] at ht
          simp at ht
  · rintro (hf | ⟨r, hf, hlt⟩)
    · exact ⟨put t (castToDatabaseObject derive rec.o),
        by rw [reconcileTask_of_none derive false t rec hne hf]; rfl⟩
    · exact ⟨put t (castToDatabaseObject derive rec.o),
        by rw [reconcileTask_of_older derive false t rec r hne hf hlt]; rfl⟩
  · intro t' ht
    cases hf : findByUnique t (derive rec.o) with
    | error e =>
      rw [reconcileTask_of_error derive false t rec e hne hf] at ht
      simp at ht
    | ok fo =>
      cases fo with
      | none =>
        rw [reconcileTask_of_none derive false t rec hne hf] at ht
        simp at ht
        exact ht.symm
      | some r =>
        by_cases hlt : r.o.updatedAt < rec.o.updatedAt
        · rw [reconcileTask_of_older derive false t rec r hne hf hlt] at ht
          simp at ht
          exact ht.symm
        · rw [reconcileTask_of_notOlder derive false t rec r hne hf hlt] at ht
          simp at ht
  · intro r hf hle
    have hlt : ¬ r.o.updatedAt < rec.o.updatedAt := not_lt.mpr hle
    have htask := reconcileTask_of_notOlder derive false t rec r hne hf hlt
    refine ⟨htask, fun rest => ?_⟩
    rw [reconcileAll, htask]
    simp

theorem claim_C1_witness :
    ∃ t', reconcileTask deriveNaturalKey false [] ⟨"old", ⟨1, 1, 5⟩⟩ = .ok (t', true) :=
  (claim_C1_reconciler_write_condition deriveNaturalKey [] ⟨"old", ⟨1, 1, 5⟩⟩
    (by decide)).1.mpr (Or.inl rfl)

/-- C7: when more than one stored record resolves to the derived unique key
during the reconciler's lookup, the `findByUnique` error surfaces as the
migration's outcome (the aggregate rejects with it), the condition is never
silently skipped, and the task performs no write: the table is unchanged. -/
theorem claim_C7_ambiguous_lookup_fatal (derive : Entity → String)
    (dryRun : Bool) (src : Option String) (ukt : String)
    (rec : StoredRecord) (resp : List ScanResponse) (t0 : Table)
    (hscan : (scanAll resp).flatten = [rec])
    (hne : derive rec.o ≠ rec.p)
    (hamb : 2 ≤ (recordsAt t0 (derive rec.o)).length) :
    (migrateAllRecordsToNewSchema derive dryRun src ukt resp t0).result
      = .error "more than one object found by unique"
    ∧ (migrateAllRecordsToNewSchema derive dryRun src ukt resp t0).table = t0 := by
  have hfb := findByUnique_of_two t0 (derive rec.o) hamb
  have htask := reconcileTask_of_error derive dryRun t0 rec _ hne hfb
  have hrall : reconcileAll derive dryRun ((scanAll resp).flatten) t0
      = (t0, 0, some "more than one object found by unique") := by
    rw [hscan, reconcileAll, htask]
    rfl
  refine ⟨?_, ?_⟩ <;> rw [migrate_eq, hrall]

theorem claim_C7_witness :
    (migrateAllRecordsToNewSchema deriveNaturalKey false none "U" c7Responses c7Table0).result
      = .error "more than one object found by unique"
    ∧ (migrateAllRecordsToNewSchema deriveNaturalKey false none "U" c7Responses c7Table0).table
      = c7Table0 :=
  claim_C7_ambiguous_lookup_fatal deriveNaturalKey false none "U" c7Rec c7Responses c7Table0
    rfl (by decide) (by decide)

/-- C8: over the limiter's whole lifetime, every state reachable from an
initial state with `n` pending tasks and nothing executing has at most `cap`
tasks executing concurrently (for the generated code, `cap` is
`bottleneckMaxConcurrent = 1000`; the claim's instance is `cap = 2`,
`n = 10`). -/
theorem claim_C8_limiter_cap (cap n : Nat) (s : LimiterState)
    (h : LimiterReachable cap ⟨n, 0, 0⟩ s) : s.running ≤ cap := by
  induction h with
  | refl => exact Nat.zero_le cap
  | tail hr hstep ih =>
    cases hstep with
    | start p r c hlt => exact hlt
    | finish p r c => exact Nat.le_of_succ_le ih

theorem claim_C8_witness : (LimiterState.mk 8 2 0).running ≤ 2 :=
  claim_C8_limiter_cap 2 10 ⟨8, 2, 0⟩
    (LimiterReachable.tail
      (LimiterReachable.tail (LimiterReachable.refl _)
        (LimiterStep.start 9 0 0 (by decide)))
      (LimiterStep.start 8 1 0 (by decide)))

/-- C9: whenever the migration returns a report, `migrated.objects` equals
the number of records obtained by the scan phase, independently of `dryRun`
and of how many writes occurred. -/
theorem claim_C9_migrated_objects_count (derive : Entity → String)
    (dryRun : Bool) (src : Option String) (ukt : String)
    (resp : List ScanResponse) (t0 : Table) (s : Stats)
    (h : (migrateAllRecordsToNewSchema derive dryRun src ukt resp t0).result = .ok s) :
    s.migratedObjects = ((scanAll resp).flatten).length := by
  rw [migrate_ok_stats derive dryRun src ukt resp t0 s h]

theorem claim_C9_witness :
    (Stats.mk "U" "U" 2 2).migratedObjects = ((scanAll c4Responses).flatten).length :=
  claim_C9_migrated_objects_count deriveNaturalKey true none "U" c4Responses c4Table0
    ⟨"U", "U", 2, 2⟩ rfl

/-- C10: a scan response whose record list is absent contributes an empty
page and scanning continues with the next response; and a source yielding
zero records produces a normal report with `migrated.objects = 0` and
`writtenUniqueKeyRecords = 0`, leaving the store untouched. -/
theorem claim_C10_absent_page_safe (derive : Entity → String) (dryRun : Bool)
    (src : Option String) (ukt : String) (tok : Nat)
    (rest resp : List ScanResponse) (t0 : Table) :
    scanAll ({ items := none, lastEvaluatedKey := some tok } :: rest)
      = [] :: scanAll rest
    ∧ ((scanAll resp).flatten = ([] : Table) →
        (migrateAllRecordsToNewSchema derive dryRun src ukt resp t0).table = t0
        ∧ (migrateAllRecordsToNewSchema derive dryRun src ukt resp t0).result
            = .ok ⟨src.getD ukt, ukt, 0, 0⟩) := by
  constructor
  · simp [scanAll]
  · intro hempty
    have hrall : reconcileAll derive dryRun ((scanAll resp).flatten) t0
        = (t0, 0, none) := by
      rw [hempty]
      rfl
    refine ⟨?_, ?_⟩
    · rw [migrate_eq, hrall, hempty]
      cases dryRun <;> rfl
    · rw [migrate_eq, hrall, hempty]
      rfl

theorem claim_C10_witness :
    scanAll [⟨none, some 0⟩, ⟨none, none⟩] = [] :: scanAll [⟨none, none⟩]
    ∧ (migrateAllRecordsToNewSchema deriveNaturalKey false none "U"
        [⟨none, some 0⟩, ⟨none, none⟩] []).table = []
    ∧ (migrateAllRecordsToNewSchema deriveNaturalKey false none "U"
        [⟨none, some 0⟩, ⟨none, none⟩] []).result = .ok ⟨"U", "U", 0, 0⟩ :=
  ⟨(claim_C10_absent_page_safe deriveNaturalKey false none "U" 0 [⟨none, none⟩]
      [⟨none, some 0⟩, ⟨none, none⟩] []).1,
   ((claim_C10_absent_page_safe deriveNaturalKey false none "U" 0 [⟨none, none⟩]
      [⟨none, some 0⟩, ⟨none, none⟩] []).2 rfl).1,
   ((claim_C10_absent_page_safe deriveNaturalKey false none "U" 0 [⟨none, none⟩]
      [⟨none, some 0⟩, ⟨none, none⟩] []).2 rfl).2⟩

/-- C4 (counterexample): dry-run does not always report the same
`writtenUniqueKeyRecords` count as a non-dry-run against the same initial
store.  On `c4Table0`, two stale records share the derived key "k1": the real
run's first write makes the second lookup find fresh data (1 write), while
the dry run, never writing, counts both (2 writes). -/
theorem claim_C4_counterexample :
    ¬ (∀ s s' : Stats,
        (migrateAllRecordsToNewSchema deriveNaturalKey true none "U"
          c4Responses c4Table0).result = Except.ok s →
        (migrateAllRecordsToNewSchema deriveNaturalKey false none "U"
          c4Responses c4Table0).result = Except.ok s' →
        s.writtenUniqueKeyRecords = s'.writtenUniqueKeyRecords) := by
  intro h
  have := h ⟨"U", "U", 2, 2⟩ ⟨"U", "U", 1, 2⟩ rfl rfl
  exact absurd this (by decide)

/-- C4 (amended): invoking the migration with `dryRun = true` performs no
write: the destination table is left exactly in its pre-invocation state,
unconditionally.  Moreover, when the scanned records' derived unique keys
are pairwise distinct, the dry run returns exactly the result (report or
error) a non-dry-run invocation against the same initial store would return;
when two scanned records share a derived key, the counts can differ, because
a real run's phase-2 write changes what later lookups find. -/
theorem claim_C4_dry_run (derive : Entity → String) (src : Option String)
    (ukt : String) (resp : List ScanResponse) (t0 : Table) :
    (migrateAllRecordsToNewSchema derive true src ukt resp t0).table = t0
    ∧ ((((scanAll resp).flatten).map (fun r => derive r.o)).Nodup →
        (migrateAllRecordsToNewSchema derive true src ukt resp t0).result
          = (migrateAllRecordsToNewSchema derive false src ukt resp t0).result) := by
  refine ⟨migrate_dryRun_table derive src ukt resp t0, fun hnd => ?_⟩
  have hag := reconcileAll_agree derive ((scanAll resp).flatten) t0 t0
    (fun _ _ => rfl) hnd
  have h22 : (reconcileAll derive true ((scanAll resp).flatten) t0).2.2
      = (reconcileAll derive false ((scanAll resp).flatten) t0).2.2 := by rw [hag]
  have h21 : (reconcileAll derive true ((scanAll resp).flatten) t0).2.1
      = (reconcileAll derive false ((scanAll resp).flatten) t0).2.1 := by rw [hag]
  rw [migrate_eq derive true src ukt resp t0, migrate_eq derive false src ukt resp t0,
    h22]
  cases he : (reconcileAll derive false ((scanAll resp).flatten) t0).2.2 with
  | some e => rfl
  | none => simp only [h21]

theorem claim_C4_witness :
    (migrateAllRecordsToNewSchema deriveNaturalKey true none "U"
      c4OkResponses c4OkTable).table = c4OkTable
    ∧ (migrateAllRecordsToNewSchema deriveNaturalKey true none "U"
        c4OkResponses c4OkTable).result
      = (migrateAllRecordsToNewSchema deriveNaturalKey false none "U"
          c4OkResponses c4OkTable).result :=
  ⟨(claim_C4_dry_run deriveNaturalKey none "U" c4OkResponses c4OkTable).1,
   (claim_C4_dry_run deriveNaturalKey none "U" c4OkResponses c4OkTable).2 (by decide)⟩

/-- C6 (counterexample): when a reconcile-phase task fails, the caller does
not receive the migration report: the whole invocation rejects with the
task's error.  On `c6Table0`, the stale record's lookup at "k1" is ambiguous
and the migration returns the error instead of any report. -/
theorem claim_C6_counterexample :
    (migrateAllRecordsToNewSchema deriveNaturalKey false none "U"
      c6Responses c6Table0).result
      = Except.error "more than one object found by unique" := rfl

/-- C6 (amended): a failing per-record task — in the reconcile phase
(phase 2) or in the re-write phase (phase 3) — does not stop its sibling
tasks: the remaining tasks still execute, their table effects are applied
and (in phase 2) their write counts accrue, and the first failure becomes
the phase's aggregate outcome; however, the migration then rejects with that
failure, so the caller receives the error — with the table still reflecting
every sibling task's effects — and not the migration report. -/
theorem claim_C6_sibling_tasks (derive : Entity → String) (dryRun : Bool)
    (wfail : Entity → Option String)
    (rec : StoredRecord) (rest : List StoredRecord) (t : Table) (e : String)
    (obj : Entity) (objs : List Entity) (t3 : Table) (e3 : String)
    (h : reconcileTask derive dryRun t rec = .error e)
    (h3 : wfail obj = some e3) :
    (reconcileAll derive dryRun (rec :: rest) t).1
        = (reconcileAll derive dryRun rest t).1
    ∧ (reconcileAll derive dryRun (rec :: rest) t).2.1
        = (reconcileAll derive dryRun rest t).2.1
    ∧ (reconcileAll derive dryRun (rec :: rest) t).2.2 = some e
    ∧ (rewriteAllTry derive wfail (obj :: objs) t3).1
        = (rewriteAllTry derive wfail objs t3).1
    ∧ (rewriteAllTry derive wfail (obj :: objs) t3).2 = some e3
    ∧ (∀ (src : Option String) (ukt : String) (resp : List ScanResponse)
        (t0 : Table) (e' : String),
        (reconcileAll derive dryRun ((scanAll resp).flatten) t0).2.2 = some e' →
          (migrateAllRecordsToNewSchemaTry derive wfail dryRun src ukt resp t0).result
              = .error e'
          ∧ (migrateAllRecordsToNewSchemaTry derive wfail dryRun src ukt resp t0).table
              = (reconcileAll derive dryRun ((scanAll resp).flatten) t0).1)
    ∧ (∀ (src : Option String) (ukt : String) (resp : List ScanResponse)
        (t0 : Table) (e' : String),
        (reconcileAll derive false ((scanAll resp).flatten) t0).2.2 = none →
        (rewriteAllTry derive wfail
            (((scanAll resp).flatten).map castFromDatabaseObject)
            (reconcileAll derive false ((scanAll resp).flatten) t0).1).2 = some e' →
          (migrateAllRecordsToNewSchemaTry derive wfail false src ukt resp t0).result
              = .error e'
          ∧ (migrateAllRecordsToNewSchemaTry derive wfail false src ukt resp t0).table
              = (rewriteAllTry derive wfail
                  (((scanAll resp).flatten).map castFromDatabaseObject)
                  (reconcileAll derive false ((scanAll resp).flatten) t0).1).1) := by
  have hup : upsertTry derive wfail obj t3 = .error e3 := by
    unfold upsertTry
    rw [h3]
  refine ⟨?_, ?_, ?_, ?_, ?_, ?_, ?_⟩
  · rw [reconcileAll, h]
  · rw [reconcileAll, h]
  · rw [reconcileAll, h]
  · rw [rewriteAllTry, hup]
  · rw [rewriteAllTry, hup]
  · intro src ukt resp t0 e' h2
    refine ⟨?_, ?_⟩ <;> rw [migrateTry_eq, h2]
  · intro src ukt resp t0 e' h2 hph3
    refine ⟨?_, ?_⟩
    · rw [migrateTry_eq, h2, hph3]
      rfl
    · rw [migrateTry_eq, h2, hph3]
      rfl

theorem claim_C6_witness :
    (reconcileAll deriveNaturalKey false
        [⟨"old", ⟨3, 1, 5⟩⟩, ⟨"stale", ⟨5, 7, 9⟩⟩] c6Table0).2.2
      = some "more than one object found by unique"
    ∧ (reconcileAll deriveNaturalKey false
        [⟨"old", ⟨3, 1, 5⟩⟩, ⟨"stale", ⟨5, 7, 9⟩⟩] c6Table0).2.1 = 1
    ∧ (⟨"k7", ⟨5, 7, 9⟩⟩ : StoredRecord) ∈ (reconcileAll deriveNaturalKey false
        [⟨"old", ⟨3, 1, 5⟩⟩, ⟨"stale", ⟨5, 7, 9⟩⟩] c6Table0).1
    ∧ (rewriteAllTry deriveNaturalKey c6Wfail [⟨9, 9, 9⟩, ⟨5, 7, 9⟩] c6Table0).2
        = some "transport failure"
    ∧ (⟨"k7", ⟨5, 7, 9⟩⟩ : StoredRecord) ∈ (rewriteAllTry deriveNaturalKey c6Wfail
        [⟨9, 9, 9⟩, ⟨5, 7, 9⟩] c6Table0).1
    ∧ (migrateAllRecordsToNewSchemaTry deriveNaturalKey c6Wfail false none "U"
        c6p3Responses c6p3Table).result = Except.error "transport failure" := by
  have H := claim_C6_sibling_tasks deriveNaturalKey false c6Wfail
    ⟨"old", ⟨3, 1, 5⟩⟩ [⟨"stale", ⟨5, 7, 9⟩⟩] c6Table0
    "more than one object found by unique" ⟨9, 9, 9⟩ [⟨5, 7, 9⟩] c6Table0
    "transport failure" rfl rfl
  refine ⟨H.2.2.1, H.2.1.trans (by decide), ?_, H.2.2.2.2.1, ?_, ?_⟩
  · rw [H.1]
    decide
  · rw [H.2.2.2.1]
    decide
  · exact (H.2.2.2.2.2.2 none "U" c6p3Responses c6p3Table "transport failure"
      rfl rfl).1

/-- C2 (counterexample): the migration does not unconditionally preserve
identity.  On `c2Table0`, entity `entityA` (identity 1) is stored under a
stale key while a distinct identity `entityB` (identity 2) occupies the
derived key "k1"; the migration succeeds, yet the unique record at
`entityA`'s derived key carries identity 2, not 1. -/
theorem claim_C2_counterexample :
    (⟨"old", entityA⟩ : StoredRecord) ∈ c2Table0
    ∧ (migrateAllRecordsToNewSchema deriveNaturalKey false none "U"
        c2Responses c2Table0).result = Except.ok ⟨"U", "U", 0, 2⟩
    ∧ recordsAt (migrateAllRecordsToNewSchema deriveNaturalKey false none "U"
        c2Responses c2Table0).table (deriveNaturalKey entityA) = [⟨"k1", entityB⟩]
    ∧ entityB.uuid ≠ entityA.uuid :=
  ⟨by decide, rfl, by decide, by decide⟩

/-- C2 (amended): provided any two scanned records whose entities share a
derived unique key carry the same identity (the source has no pre-existing
duplicate-identity corruption under one unique key), then after a successful
non-dry-run migration over a scan of the store, every entity present before
has exactly one unique-index record at the current schema's derived key, and
that record carries the original entity's identity — no new identity is
minted. -/
theorem claim_C2_identity_preservation (derive : Entity → String)
    (src : Option String) (ukt : String) (resp : List ScanResponse)
    (t0 : Table) (s : Stats)
    (hscan : (scanAll resp).flatten = t0)
    (hinj : ∀ r1 ∈ t0, ∀ r2 ∈ t0, derive r1.o = derive r2.o → r1.o.uuid = r2.o.uuid)
    (hok : (migrateAllRecordsToNewSchema derive false src ukt resp t0).result
        = .ok s) :
    ∀ r0 ∈ t0, ∃ rec : StoredRecord,
      recordsAt (migrateAllRecordsToNewSchema derive false src ukt resp t0).table
          (derive r0.o) = [rec]
        ∧ rec.o.uuid = r0.o.uuid := by
  intro r0 hr0
  have hnone := migrate_ok_phase2_none derive false src ukt resp t0 s hok
  have hm := migrate_of_phase2_none derive false src ukt resp t0 hnone
  have ht1 : (migrateAllRecordsToNewSchema derive false src ukt resp t0).table
      = rewriteAll derive (t0.map castFromDatabaseObject)
          (reconcileAll derive false t0 t0).1 := by
    rw [hm, hscan]
    rfl
  have hmem : r0.o ∈ t0.map castFromDatabaseObject := List.mem_map_of_mem _ hr0
  obtain ⟨oL, hL1, hL2, hL3⟩ := rewriteAll_recordsAt_mem derive
    (t0.map castFromDatabaseObject) r0.o hmem ((reconcileAll derive false t0 t0).1)
  refine ⟨castToDatabaseObject derive oL, ?_, ?_⟩
  · rw [ht1]
    exact hL3
  · obtain ⟨rL, hrL, hrLo⟩ := List.mem_map.mp hL1
    have e1 : rL.o = oL := hrLo
    have hde : derive rL.o = derive r0.o := by rw [e1, hL2]
    have huuid : rL.o.uuid = r0.o.uuid := hinj rL hrL r0 hr0 hde
    show oL.uuid = r0.o.uuid
    rw [← e1, huuid]

theorem claim_C2_witness :
    ∃ rec : StoredRecord,
      recordsAt (migrateAllRecordsToNewSchema deriveNaturalKey false none "U"
          c4OkResponses c4OkTable).table
          (deriveNaturalKey (⟨1, 1, 5⟩ : Entity)) = [rec]
        ∧ rec.o.uuid = (⟨1, 1, 5⟩ : Entity).uuid :=
  claim_C2_identity_preservation deriveNaturalKey none "U" c4OkResponses c4OkTable
    ⟨"U", "U", 2, 2⟩ rfl (by decide) rfl ⟨"a", ⟨1, 1, 5⟩⟩ (by decide)

/-- C3 (counterexample): the migration is not unconditionally idempotent.
On `c3Table0` — the newer version of an entity stored under a stale key, the
older version at the derived key — run 1 succeeds, yet run 2 over the table
run 1 produced still reports `writtenUniqueKeyRecords = 1` (not 0), and the
entity set of the destination changes between the runs (the stale older
version disappears only in run 2). -/
theorem claim_C3_counterexample :
    (scanAll c3Responses1).flatten = c3Table0
    ∧ (scanAll c3Responses2).flatten = c3Run1.table
    ∧ c3Run1.result = Except.ok ⟨"U", "U", 1, 2⟩
    ∧ c3Run2.result = Except.ok ⟨"U", "U", 1, 2⟩
    ∧ entityAOld ∈ c3Run1.table.map StoredRecord.o
    ∧ entityAOld ∉ c3Run2.table.map StoredRecord.o :=
  ⟨rfl, rfl, rfl, rfl, by decide, by decide⟩

/-- C3 (amended): provided any two scanned records whose entities share a
derived unique key carry the *same entity* (same identity, natural key and
`updatedAt` — i.e. the source holds at most one version of each logical
entity per derived key), a successful non-dry-run migration followed by a
second run over the resulting table yields a second-run report with
`writtenUniqueKeyRecords = 0`, and the destination's record set after the
second run is identical to the set after the first. -/
theorem claim_C3_idempotence (derive : Entity → String) (src : Option String)
    (ukt : String) (resp1 resp2 : List ScanResponse) (t0 : Table) (s1 : Stats)
    (hscan1 : (scanAll resp1).flatten = t0)
    (hinj : ∀ r1 ∈ t0, ∀ r2 ∈ t0, derive r1.o = derive r2.o → r1.o = r2.o)
    (hok1 : (migrateAllRecordsToNewSchema derive false src ukt resp1 t0).result
        = .ok s1)
    (hscan2 : (scanAll resp2).flatten
        = (migrateAllRecordsToNewSchema derive false src ukt resp1 t0).table) :
    ∃ s2,
      (migrateAllRecordsToNewSchema derive false src ukt resp2
        (migrateAllRecordsToNewSchema derive false src ukt resp1 t0).table).result
        = .ok s2
      ∧ s2.writtenUniqueKeyRecords = 0
      ∧ ∀ x, (x ∈ (migrateAllRecordsToNewSchema derive false src ukt resp2
            (migrateAllRecordsToNewSchema derive false src ukt resp1 t0).table).table
          ↔ x ∈ (migrateAllRecordsToNewSchema derive false src ukt resp1 t0).table) := by
  have hnone1 := migrate_ok_phase2_none derive false src ukt resp1 t0 s1 hok1
  have hm1 := migrate_of_phase2_none derive false src ukt resp1 t0 hnone1
  have ht1 : (migrateAllRecordsToNewSchema derive false src ukt resp1 t0).table
      = rewriteAll derive (t0.map castFromDatabaseObject)
          (reconcileAll derive false t0 t0).1 := by
    rw [hm1, hscan1]
    rfl
  have hentA : ∀ x : StoredRecord,
      x ∈ (migrateAllRecordsToNewSchema derive false src ukt resp1 t0).table →
        x.o ∈ t0.map castFromDatabaseObject := by
    intro x hx
    rw [ht1] at hx
    rcases mem_rewriteAll derive (t0.map castFromDatabaseObject) x
      ((reconcileAll derive false t0 t0).1) hx with h1 | h1
    · rcases mem_reconcileAll derive false t0 x t0 h1 with h2 | h2
      · exact List.mem_map_of_mem _ h2
      · rw [map_castFrom_eq]
        exact h2
    · exact h1
  have hI : ∀ o ∈ t0.map castFromDatabaseObject,
      recordsAt (migrateAllRecordsToNewSchema derive false src ukt resp1 t0).table
        (derive o) = [castToDatabaseObject derive o] := by
    intro o ho
    obtain ⟨oL, hL1, hL2, hL3⟩ := rewriteAll_recordsAt_mem derive
      (t0.map castFromDatabaseObject) o ho ((reconcileAll derive false t0 t0).1)
    obtain ⟨rL, hrL, hrLo⟩ := List.mem_map.mp hL1
    obtain ⟨r0, hr0, hr0o⟩ := List.mem_map.mp ho
    have e1 : rL.o = oL := hrLo
    have e2 : r0.o = o := hr0o
    have hde : derive rL.o = derive r0.o := by rw [e1, e2, hL2]
    have heq : rL.o = r0.o := hinj rL hrL r0 hr0 hde
    have hoLo : oL = o := by rw [← e1, heq, e2]
    rw [ht1, hL3, hoLo]
  have hnoop : reconcileAll derive false ((scanAll resp2).flatten)
      (migrateAllRecordsToNewSchema derive false src ukt resp1 t0).table
      = ((migrateAllRecordsToNewSchema derive false src ukt resp1 t0).table,
         0, none) := by
    apply reconcileAll_noop
    intro rec hrec
    right
    rw [hscan2] at hrec
    exact hI rec.o (hentA rec hrec)
  have hm2 := migrate_of_phase2_none derive false src ukt resp2
    (migrateAllRecordsToNewSchema derive false src ukt resp1 t0).table
    (by rw [hnoop])
  refine ⟨⟨src.getD ukt, ukt, 0, ((scanAll resp2).flatten).length⟩, ?_, ?_, ?_⟩
  · rw [hm2, hnoop]
  · rfl
  · intro x
    have htab2 : (migrateAllRecordsToNewSchema derive false src ukt resp2
          (migrateAllRecordsToNewSchema derive false src ukt resp1 t0).table).table
        = rewriteAll derive (((scanAll resp2).flatten).map castFromDatabaseObject)
            (migrateAllRecordsToNewSchema derive false src ukt resp1 t0).table := by
      rw [hm2, hnoop]
      rfl
    rw [htab2]
    have hI2 : ∀ o ∈ ((scanAll resp2).flatten).map castFromDatabaseObject,
        recordsAt (migrateAllRecordsToNewSchema derive false src ukt resp1 t0).table
          (derive o) = [castToDatabaseObject derive o] := by
      intro o ho
      obtain ⟨rec, hrec, hreco⟩ := List.mem_map.mp ho
      rw [hscan2] at hrec
      rw [← hreco]
      exact hI rec.o (hentA rec hrec)
    exact rewriteAll_seteq derive (((scanAll resp2).flatten).map castFromDatabaseObject)
      (migrateAllRecordsToNewSchema derive false src ukt resp1 t0).table hI2 x

theorem claim_C3_witness :
    ∃ s2,
      (migrateAllRecordsToNewSchema deriveNaturalKey false none "U" c3WitnessResponses2
        (migrateAllRecordsToNewSchema deriveNaturalKey false none "U"
          c4OkResponses c4OkTable).table).result = .ok s2
      ∧ s2.writtenUniqueKeyRecords = 0
      ∧ ∀ x, (x ∈ (migrateAllRecordsToNewSchema deriveNaturalKey false none "U"
            c3WitnessResponses2
            (migrateAllRecordsToNewSchema deriveNaturalKey false none "U"
              c4OkResponses c4OkTable).table).table
          ↔ x ∈ (migrateAllRecordsToNewSchema deriveNaturalKey false none "U"
              c4OkResponses c4OkTable).table) :=
  claim_C3_idempotence deriveNaturalKey none "U" c4OkResponses c3WitnessResponses2
    c4OkTable ⟨"U", "U", 2, 2⟩ rfl (by decide) rfl rfl

/-- C5: when every response before the last carries a continuation token and
the last carries none, the scan consumes exactly all the pages (terminating
at the tokenless response) and yields their concatenation; the report's
`migrated.objects` equals the total number of records across all pages. -/
theorem claim_C5_pagination (derive : Entity → String) (dryRun : Bool)
    (src : Option String) (ukt : String)
    (front : List ScanResponse) (lastR : ScanResponse) (t0 : Table)
    (hfront : ∀ r ∈ front, r.lastEvaluatedKey.isSome)
    (hlast : lastR.lastEvaluatedKey = none) :
    scanAll (front ++ [lastR]) = (front ++ [lastR]).map (fun r => r.items.getD [])
    ∧ ∀ s, (migrateAllRecordsToNewSchema derive dryRun src ukt
          (front ++ [lastR]) t0).result = .ok s →
        s.migratedObjects
          = ((front ++ [lastR]).map (fun r => r.items.getD [])).flatten.length := by
  have h1 := scanAll_complete lastR hlast front hfront
  refine ⟨h1, fun s h => ?_⟩
  rw [migrate_ok_stats derive dryRun src ukt (front ++ [lastR]) t0 s h]
  show ((scanAll (front ++ [lastR])).flatten).length = _
  rw [h1]

theorem claim_C5_witness :
    (Stats.mk "U" "U" 0 40).migratedObjects
      = ((c5Front ++ [c5Last]).map (fun r => r.items.getD [])).flatten.length :=
  (claim_C5_pagination deriveNaturalKey false none "U" c5Front c5Last []
    (by decide) rfl).2 ⟨"U", "U", 0, 40⟩ rfl

end DynamodbDaoGen
